import Mathlib

/-!
# Verification of the OpenSpec / hypr-notifier repository against its specification

This file shallowly embeds the parts of the repository that the examined
claims are about:

* `openspec/spec.go` — the contract / bead / verification data model;
* `openspec/verifier.go` — `CUEVerifier.Verify`, `checkThreshold`,
  `checkInvariant`, `validateSchema`;
* `openspec/store.go` — the SQLite-backed `Store` (`SaveIntent`/`GetIntent`,
  `SaveVerification`/`GetVerification`);
* `openspec/openspec.go` — `Engine.Spec`, `Engine.Execute`, `Engine.Run`,
  `summarizeFailure`;
* `openspec/executor.go` — `BeadExecutor.ExecuteAll`, `executeBead`;
* `src/hypr-notifier.ts` — `handleEvent` and the idle-notification flag.

Go `float64` values are modelled by `ℚ` (the claims under study only depend on
the ordered-field structure of the comparisons, not on rounding).  Go
`time.Time` is modelled by `GoTime` (seconds + nanoseconds); `time.Duration`
by an integer nanosecond count.  Behaviour of the embedded CUE interpreter
(schema compilation/unification, invariant-expression evaluation) and of the
AI client is modelled by explicit oracle parameters, so that every theorem
quantifies over all possible behaviours of those external collaborators.
-/

set_option autoImplicit false

namespace Openspec

/-! ## JSON values

Result of Go's `json.Unmarshal` into `interface{}`: `nil`, `bool`, `float64`
(all JSON numbers), `string`, `[]interface{}`, `map[string]interface{}`.
Object fields are modelled as an association list.
-/

/-- A parsed JSON value (Go `interface{}` after `json.Unmarshal`). -/
inductive JSON where
  | null : JSON
  | bool : Bool → JSON
  | num : ℚ → JSON
  | str : String → JSON
  | arr : List JSON → JSON
  | obj : List (String × JSON) → JSON

/-- Field lookup in a JSON object (Go map indexing `m[key]`). -/
def lookupField : List (String × JSON) → String → Option JSON
  | [], _ => none
  | (k, v) :: rest, key => if k = key then some v else lookupField rest key

/-! ## Time -/

/-- Go `time.Time`, reduced to the data the store round-trips: seconds and
nanoseconds.  `GoTime.zero` is the zero `time.Time` of a fresh struct. -/
structure GoTime where
  sec : Int
  nsec : Nat
  deriving Repr, DecidableEq

/-- The zero `time.Time` (value of an unassigned `time.Time` field). -/
def GoTime.zero : GoTime := ⟨0, 0⟩

/-- Go `Time.Unix()`: seconds since the epoch. -/
def GoTime.unix (t : GoTime) : Int := t.sec

/-! ## The language of contracts (`openspec/spec.go`) -/

/-- `Invariant` from `spec.go`. -/
structure Invariant where
  id : String
  name : String
  expression : String
  severity : String
  message : String
  deriving Repr, DecidableEq

/-- `Threshold` from `spec.go`.  `value` and `tolerance` are Go `float64`. -/
structure Threshold where
  id : String
  name : String
  metric : String
  operator : String
  value : ℚ
  unit : String
  tolerance : ℚ
  deriving Repr, DecidableEq

/-- `Example` from `spec.go`. -/
structure Example where
  name : String
  input : String
  output : String
  valid : Bool
  deriving Repr, DecidableEq

/-- `Contract` from `spec.go`; the metadata map is an association list. -/
structure Contract where
  id : String
  name : String
  description : String
  schema : String
  invariants : List Invariant
  thresholds : List Threshold
  examples : List Example
  metadata : List (String × String)
  deriving Repr, DecidableEq

/-- `Bead` from `spec.go`; `size` and `status` are the string-typed
`BeadSize` / `BeadStatus`. -/
structure Bead where
  id : String
  name : String
  description : String
  contract : Contract
  requires : List String
  produces : List String
  size : String
  status : String
  createdAt : GoTime
  deriving Repr, DecidableEq

/-! ## The language of verification (`openspec/spec.go`) -/

/-- `ContractCheck` from `spec.go`. -/
structure ContractCheck where
  contractID : String
  passed : Bool
  errors : List String
  deriving Repr, DecidableEq

/-- `InvariantCheck` from `spec.go`. -/
structure InvariantCheck where
  invariantID : String
  passed : Bool
  expression : String
  actual : String
  message : String
  deriving Repr, DecidableEq

/-- `ThresholdCheck` from `spec.go`. -/
structure ThresholdCheck where
  thresholdID : String
  passed : Bool
  expected : ℚ
  actual : ℚ
  unit : String
  deriving Repr, DecidableEq

/-- `PropertyCheck` from `spec.go`. -/
structure PropertyCheck where
  property : String
  passed : Bool
  iterations : Nat
  failures : Nat
  counterexample : String
  deriving Repr, DecidableEq

/-- `Verification` from `spec.go`; `duration` is nanoseconds. -/
structure Verification where
  beadID : String
  passed : Bool
  contractChecks : List ContractCheck
  invariantChecks : List InvariantCheck
  thresholdChecks : List ThresholdCheck
  propertyChecks : List PropertyCheck
  duration : Int
  timestamp : GoTime
  deriving Repr, DecidableEq

/-- The zero `Verification` value (Go `Verification{}`). -/
def Verification.zero : Verification :=
  { beadID := "", passed := false, contractChecks := [], invariantChecks := [],
    thresholdChecks := [], propertyChecks := [], duration := 0,
    timestamp := GoTime.zero }

/-! ## `checkThreshold` (`verifier.go` lines 183-234) -/

/-- `CUEVerifier.checkThreshold` from `verifier.go`.  The check starts out
passed; it only looks at `data["metrics"][t.metric]` when `data` is an object
with a `"metrics"` object containing the metric key, fails on a non-`float64`
value, and otherwise applies the operator switch (an operator outside the five
known ones leaves `passed` at its initial `true`). -/
def checkThreshold (t : Threshold) (data : JSON) : ThresholdCheck :=
  let check : ThresholdCheck :=
    { thresholdID := t.id, passed := true, expected := t.value, actual := 0,
      unit := t.unit }
  match data with
  | JSON.obj dataMap =>
    match lookupField dataMap "metrics" with
    | some (JSON.obj metrics) =>
      match lookupField metrics t.metric with
      | some actualVal =>
        match actualVal with
        | JSON.num actual =>
          let passed : Bool :=
            if t.operator = "<" then decide (actual < t.value)
            else if t.operator = "<=" then decide (actual ≤ t.value)
            else if t.operator = ">" then decide (t.value < actual)
            else if t.operator = ">=" then decide (t.value ≤ actual)
            else if t.operator = "==" then
              let tolerance := t.value * t.tolerance
              decide (t.value - tolerance ≤ actual) &&
                decide (actual ≤ t.value + tolerance)
            else check.passed
          { check with actual := actual, passed := passed }
        | _ => { check with passed := false }
      | none => check
    | _ => check
  | _ => check

/-! ## Display of decoded JSON (Go `fmt.Sprintf("%v", data)`) -/

mutual

/-- Go `fmt.Sprintf("%v", data)` display of a decoded JSON value, used only
for the `actual` string of a failed invariant check; the exact text is
irrelevant to every property below. -/
def renderJSON : JSON → String
  | .null => "<nil>"
  | .bool b => cond b "true" "false"
  | .num q => toString q
  | .str s => s
  | .arr xs => "[" ++ renderJSONList xs ++ "]"
  | .obj fs => "map[" ++ renderJSONFields fs ++ "]"

/-- Display helper for JSON arrays. -/
def renderJSONList : List JSON → String
  | [] => ""
  | [x] => renderJSON x
  | x :: xs => renderJSON x ++ " " ++ renderJSONList xs

/-- Display helper for JSON object fields. -/
def renderJSONFields : List (String × JSON) → String
  | [] => ""
  | [(k, v)] => k ++ ":" ++ renderJSON v
  | (k, v) :: fs => k ++ ":" ++ renderJSON v ++ " " ++ renderJSONFields fs

end

/-! ## The CUE oracle -/

/-- Oracles standing for the behaviour of the embedded CUE interpreter and of
the randomized property tester inside `CUEVerifier`:

* `schemaValid s d` — whether compiling schema `s`, encoding `d`, unifying the
  two and validating succeeds (`validateSchema`, collapsing its three error
  messages into one failure);
* `evalBool e d` — the boolean value of invariant expression `e` evaluated
  against `d` by the CUE engine, or `none` when compilation, evaluation, or
  the conversion to bool fails (`checkInvariant`);
* `runPropertyTests c d` — the result of `runPropertyTests`, whose random
  instance generation makes it an oracle.

Theorems below quantify over all oracles, i.e., hold for every behaviour of
the CUE engine; concrete instantiations only fix the oracle on inputs where
CUE's behaviour is determined (the empty schema admits everything, the literal
expressions `"true"` / `"false"` evaluate to the corresponding boolean, and a
non-identical pair of scalars fails unification). -/
structure CUEOracle where
  schemaValid : String → JSON → Bool
  evalBool : String → JSON → Option Bool
  runPropertyTests : Contract → JSON → PropertyCheck

/-- `CUEVerifier.validateSchema` from `verifier.go` (lines 98-128), with the
CUE compile/encode/unify/validate pipeline abstracted by the oracle.  A failed
check carries a non-empty error list, as in the source. -/
def validateSchema (oracle : CUEOracle) (contract : Contract) (data : JSON) :
    ContractCheck :=
  if oracle.schemaValid contract.schema data then
    { contractID := contract.id, passed := true, errors := [] }
  else
    { contractID := contract.id, passed := false,
      errors := ["Schema validation failed"] }

/-- `CUEVerifier.checkInvariant` from `verifier.go` (lines 130-181).  The
three failure modes of the source (compile error, evaluation error, non-bool
result) are collapsed into `evalBool = none`; in all of them the check fails,
as in the source.  A `false` result records the invariant's message and the
rendered data. -/
def checkInvariant (oracle : CUEOracle) (invariant : Invariant) (data : JSON) :
    InvariantCheck :=
  match oracle.evalBool invariant.expression data with
  | none =>
    { invariantID := invariant.id, passed := false,
      expression := invariant.expression, actual := "",
      message := "Invariant evaluation failed" }
  | some boolResult =>
    if boolResult then
      { invariantID := invariant.id, passed := true,
        expression := invariant.expression, actual := "", message := "" }
    else
      { invariantID := invariant.id, passed := false,
        expression := invariant.expression, actual := renderJSON data,
        message := invariant.message }

/-! ## `CUEVerifier.Verify` (`verifier.go` lines 38-96) -/

/-- `CUEVerifier.Verify`.  `implementation` is the result of
`json.Unmarshal` on the raw bytes (`none` = parse error); `elapsed` and `now`
stand for the wall-clock observations `time.Since(start)` / `time.Now()`.
The control flow mirrors the source: a JSON parse error returns immediately
with a single failed contract check; otherwise the four stages each run and
append their checks, flipping `passed` exactly as the source does (note that a
failed invariant check only flips `passed` when the invariant's severity is
`"error"`). -/
def Verify (oracle : CUEOracle) (bead : Bead) (implementation : Option JSON)
    (elapsed : Int) (now : GoTime) : Verification :=
  match implementation with
  | none =>
    { beadID := bead.id, passed := false,
      contractChecks :=
        [{ contractID := bead.contract.id, passed := false,
           errors := ["Invalid JSON"] }],
      invariantChecks := [], thresholdChecks := [], propertyChecks := [],
      duration := elapsed, timestamp := now }
  | some implData =>
    let contractCheck := validateSchema oracle bead.contract implData
    let passed1 : Bool := contractCheck.passed
    let invariantChecks :=
      bead.contract.invariants.map (fun inv => checkInvariant oracle inv implData)
    let passed2 : Bool :=
      bead.contract.invariants.foldl
        (fun p inv =>
          if !(checkInvariant oracle inv implData).passed && inv.severity == "error"
          then false else p)
        passed1
    let thresholdChecks :=
      bead.contract.thresholds.map (fun t => checkThreshold t implData)
    let passed3 : Bool :=
      thresholdChecks.foldl (fun p c => if !c.passed then false else p) passed2
    let propertyChecks : List PropertyCheck :=
      if bead.contract.examples.length > 0 then
        [oracle.runPropertyTests bead.contract implData]
      else []
    let passed4 : Bool :=
      propertyChecks.foldl (fun p c => if !c.passed then false else p) passed3
    { beadID := bead.id, passed := passed4,
      contractChecks := [contractCheck],
      invariantChecks := invariantChecks,
      thresholdChecks := thresholdChecks,
      propertyChecks := propertyChecks,
      duration := elapsed, timestamp := now }

/-- Claim-side predicate (C1): every check recorded in the verification — the
contract checks, the invariant checks, the threshold checks and the property
checks — has `passed = true`. -/
def allChecksPassed (v : Verification) : Bool :=
  v.contractChecks.all (fun c => c.passed) &&
  v.invariantChecks.all (fun c => c.passed) &&
  v.thresholdChecks.all (fun c => c.passed) &&
  v.propertyChecks.all (fun c => c.passed)

/-! ## Claim-side predicates for the threshold checker -/

/-- Claim-side helper (C9): the metric value `data["metrics"][metric]`, when
`data` is an object holding a `"metrics"` object that contains the key. -/
def metricValue (data : JSON) (metric : String) : Option JSON :=
  match data with
  | JSON.obj dataMap =>
    match lookupField dataMap "metrics" with
    | some (JSON.obj metrics) => lookupField metrics metric
    | _ => none
  | _ => none

/-- Claim-side predicate (C9, first clause): the conditions under which the
claim asserts `checkThreshold` always returns `Passed = true` — the
implementation JSON is not an object, has no `"metrics"` object, lacks the
metric key, or the operator is outside the five known ones. -/
def thresholdVacuousSpec (t : Threshold) (data : JSON) : Bool :=
  (metricValue data t.metric).isNone ||
  !(t.operator == "<" || t.operator == "<=" || t.operator == ">" ||
    t.operator == ">=" || t.operator == "==")

/-- Claim-side specification of `checkThreshold` as amended (C9): the check
passes unless the metric value is present and either non-numeric, or numeric,
under one of the five known operators, and violating the operator's bound
(`"=="` allowing a deviation of `value * tolerance`).  A present non-numeric
value fails the check even when the operator is unknown. -/
def thresholdPassSpec (t : Threshold) (data : JSON) : Bool :=
  match metricValue data t.metric with
  | none => true
  | some (JSON.num actual) =>
    if t.operator = "<" then decide (actual < t.value)
    else if t.operator = "<=" then decide (actual ≤ t.value)
    else if t.operator = ">" then decide (t.value < actual)
    else if t.operator = ">=" then decide (t.value ≤ actual)
    else if t.operator = "==" then
      decide (t.value - t.value * t.tolerance ≤ actual ∧
              actual ≤ t.value + t.value * t.tolerance)
    else true
  | some _ => false

/-! ## Concrete instances used by the counterexamples -/

/-- Concrete CUE oracle asserting exactly the behaviours of the real CUE
engine that are determined a priori: the empty schema admits every value, the
scalar-literal schema `"3"` admits exactly the number `3` (unification of two
distinct scalars fails), and the literal invariant expressions `"true"` /
`"false"` evaluate to the corresponding boolean. -/
def litOracle : CUEOracle where
  schemaValid := fun s d =>
    if s = "" then true
    else if s = "3" then
      match d with
      | JSON.num q => q == 3
      | _ => false
    else false
  evalBool := fun e _ =>
    if e = "true" then some true
    else if e = "false" then some false
    else none
  runPropertyTests := fun _ _ =>
    { property := "schema_conformance", passed := true, iterations := 100,
      failures := 0, counterexample := "" }

/-- A bead whose only invariant is the always-false expression with severity
`"warning"`, under the empty (always-satisfied) schema. -/
def warnBead : Bead :=
  { id := "bead-1", name := "warn bead", description := "",
    contract :=
      { id := "contract-1", name := "c1", description := "", schema := "",
        invariants :=
          [{ id := "inv-1", name := "soft", expression := "false",
             severity := "warning", message := "soft invariant violated" }],
        thresholds := [], examples := [], metadata := [] },
    requires := [], produces := [], size := "xs", status := "ready",
    createdAt := GoTime.zero }

/-- A bead whose schema is the scalar literal `3` (so that the number `4`
fails schema validation) and which carries one always-true invariant of
severity `"error"`. -/
def strictBead : Bead :=
  { id := "bead-2", name := "strict bead", description := "",
    contract :=
      { id := "contract-2", name := "c2", description := "", schema := "3",
        invariants :=
          [{ id := "inv-2", name := "hard", expression := "true",
             severity := "error", message := "hard invariant violated" }],
        thresholds := [], examples := [], metadata := [] },
    requires := [], produces := [], size := "xs", status := "ready",
    createdAt := GoTime.zero }

/-- A threshold whose operator `"!="` is outside the five handled by the
operator switch. -/
def neqThreshold : Threshold :=
  { id := "th-1", name := "latency bound", metric := "latency_p99",
    operator := "!=", value := 100, unit := "ms", tolerance := 0 }

/-- Implementation data whose `latency_p99` metric is present but is a string
rather than a number. -/
def neqData : JSON :=
  JSON.obj [("metrics", JSON.obj [("latency_p99", JSON.str "fast")])]

/-! ## Helper lemmas -/

/-- The fail-flag folds of `Verify` compute a conjunction: folding
`if cond x then false else p` over a list ands the initial flag with the
absence of any element satisfying `cond`. -/
theorem foldl_if_false {α : Type} (cond : α → Bool) (l : List α) (init : Bool) :
    l.foldl (fun p x => if cond x then false else p) init
      = (init && l.all (fun x => !cond x)) := by
  induction l generalizing init with
  | nil => simp
  | cons x xs ih =>
    simp only [List.foldl_cons, List.all_cons]
    rw [ih]
    cases h : cond x <;> simp [h]

/-- The four check lists recorded by `Verify` on a parsed implementation. -/
theorem Verify_some_contractChecks (oracle : CUEOracle) (bead : Bead)
    (data : JSON) (elapsed : Int) (now : GoTime) :
    (Verify oracle bead (some data) elapsed now).contractChecks =
      [validateSchema oracle bead.contract data] := rfl

/-- The threshold checks recorded by `Verify` on a parsed implementation. -/
theorem Verify_some_thresholdChecks (oracle : CUEOracle) (bead : Bead)
    (data : JSON) (elapsed : Int) (now : GoTime) :
    (Verify oracle bead (some data) elapsed now).thresholdChecks =
      bead.contract.thresholds.map (fun t => checkThreshold t data) := rfl

/-- The property checks recorded by `Verify` on a parsed implementation. -/
theorem Verify_some_propertyChecks (oracle : CUEOracle) (bead : Bead)
    (data : JSON) (elapsed : Int) (now : GoTime) :
    (Verify oracle bead (some data) elapsed now).propertyChecks =
      (if bead.contract.examples.length > 0 then
        [oracle.runPropertyTests bead.contract data]
      else []) := rfl

/-- Closed form of the `Passed` flag computed by `Verify` on a parsed
implementation: the conjunction of the schema check, the absence of a failed
`"error"`-severity invariant, and all threshold and property checks. -/
theorem Verify_some_passed (oracle : CUEOracle) (bead : Bead) (data : JSON)
    (elapsed : Int) (now : GoTime) :
    (Verify oracle bead (some data) elapsed now).passed =
      ((validateSchema oracle bead.contract data).passed &&
       (bead.contract.invariants.all (fun inv =>
          !(!(checkInvariant oracle inv data).passed && inv.severity == "error")) &&
        ((bead.contract.thresholds.map (fun t => checkThreshold t data)).all
            (fun c => c.passed) &&
         (if bead.contract.examples.length > 0 then
            [oracle.runPropertyTests bead.contract data]
          else []).all (fun c => c.passed)))) := by
  simp only [Verify, foldl_if_false, Bool.not_not, Bool.and_assoc]

/-! ## C1 — `Verify`'s `Passed` flag versus the recorded checks -/

/-- C1 counterexample: for the bead whose sole invariant is `"false"` with
severity `"warning"` and an empty schema, `Verify` reports `Passed = true`
even though a recorded invariant check has `Passed = false`, refuting the
claim that `Passed` is true iff every recorded check passed. -/
theorem verify_passed_despite_failed_check :
    (Verify litOracle warnBead (some (JSON.obj [])) 0 GoTime.zero).passed = true ∧
    allChecksPassed (Verify litOracle warnBead (some (JSON.obj [])) 0 GoTime.zero)
      = false := by
  exact ⟨rfl, rfl⟩

/-- C1 (amended): for a successfully parsed implementation, `Verify` reports
`Passed = true` iff every recorded contract, threshold and property check
passed and, among the invariant checks, those whose invariant has severity
`"error"` passed; failed invariant checks of any other severity do not affect
`Passed`.  (For an implementation that fails to parse, `Passed = false` and
the single recorded contract check also fails.) -/
theorem verify_passed_iff (oracle : CUEOracle) (bead : Bead) (data : JSON)
    (elapsed : Int) (now : GoTime) :
    (Verify oracle bead (some data) elapsed now).passed = true ↔
      ((Verify oracle bead (some data) elapsed now).contractChecks.all
          (fun c => c.passed) = true ∧
       (Verify oracle bead (some data) elapsed now).thresholdChecks.all
          (fun c => c.passed) = true ∧
       (Verify oracle bead (some data) elapsed now).propertyChecks.all
          (fun c => c.passed) = true ∧
       ∀ inv ∈ bead.contract.invariants, inv.severity = "error" →
         (checkInvariant oracle inv data).passed = true) := by
  rw [Verify_some_passed, Verify_some_contractChecks, Verify_some_thresholdChecks,
    Verify_some_propertyChecks]
  simp only [Bool.and_eq_true, List.all_cons, List.all_nil, Bool.and_true]
  constructor
  · rintro ⟨h1, h2, h3, h4⟩
    refine ⟨h1, h3, h4, fun inv hinv hsev => ?_⟩
    have hel := List.all_eq_true.mp h2 inv hinv
    simp only [Bool.not_and, Bool.or_eq_true, Bool.not_not, Bool.not_eq_true',
      beq_eq_false_iff_ne, ne_eq] at hel
    exact hel.resolve_right (fun hne => hne hsev)
  · rintro ⟨h1, h3, h4, h2⟩
    refine ⟨h1, List.all_eq_true.mpr (fun inv hinv => ?_), h3, h4⟩
    simp only [Bool.not_and, Bool.or_eq_true, Bool.not_not, Bool.not_eq_true',
      beq_eq_false_iff_ne, ne_eq]
    by_cases hsev : inv.severity = "error"
    · exact Or.inl (h2 inv hinv hsev)
    · exact Or.inr hsev

/-! ## C4 — stage execution is not short-circuited -/

/-- C4 counterexample: for the bead whose schema rejects the implementation
`4`, the contract-validation stage fails, yet the invariant stage still runs
and records its check — refuting the claim that no later stage executes or
records checks after a stage failure. -/
theorem verify_records_after_failed_stage :
    (Verify litOracle strictBead (some (JSON.num 4)) 0 GoTime.zero).contractChecks.all
        (fun c => c.passed) = false ∧
    (Verify litOracle strictBead (some (JSON.num 4)) 0 GoTime.zero).invariantChecks.length
        = 1 := by
  exact ⟨rfl, rfl⟩

/-- C4 (amended): the only short-circuit in `Verify` is a JSON parse failure,
which returns immediately with a single failed contract check and no
invariant, threshold or property checks; for any parsed implementation all
four stages run unconditionally — the recorded invariant, threshold and
property checks are exactly those of every invariant, threshold and example
set of the contract, regardless of earlier stage failures. -/
theorem verify_stage_recording (oracle : CUEOracle) (bead : Bead)
    (elapsed : Int) (now : GoTime) :
    ((Verify oracle bead none elapsed now).passed = false ∧
     (Verify oracle bead none elapsed now).contractChecks =
       [{ contractID := bead.contract.id, passed := false,
          errors := ["Invalid JSON"] }] ∧
     (Verify oracle bead none elapsed now).invariantChecks = [] ∧
     (Verify oracle bead none elapsed now).thresholdChecks = [] ∧
     (Verify oracle bead none elapsed now).propertyChecks = []) ∧
    ∀ data : JSON,
      (Verify oracle bead (some data) elapsed now).contractChecks =
        [validateSchema oracle bead.contract data] ∧
      (Verify oracle bead (some data) elapsed now).invariantChecks =
        bead.contract.invariants.map (fun inv => checkInvariant oracle inv data) ∧
      (Verify oracle bead (some data) elapsed now).thresholdChecks =
        bead.contract.thresholds.map (fun t => checkThreshold t data) ∧
      (Verify oracle bead (some data) elapsed now).propertyChecks =
        (if bead.contract.examples.length > 0 then
          [oracle.runPropertyTests bead.contract data]
        else []) := by
  exact ⟨⟨rfl, rfl, rfl, rfl, rfl⟩, fun data => ⟨rfl, rfl, rfl, rfl⟩⟩

/-! ## C9 — characterization of `checkThreshold` -/

/-- C9 counterexample: with operator `"!="` (outside the five known ones) and
a present but non-numeric metric value, `checkThreshold` returns
`Passed = false`, refuting the claim's clause that an unknown operator always
yields `Passed = true`. -/
theorem checkThreshold_fails_with_unknown_operator :
    thresholdVacuousSpec neqThreshold neqData = true ∧
    (checkThreshold neqThreshold neqData).passed = false := by
  exact ⟨rfl, rfl⟩

/-- C9 (amended): `checkThreshold` passes exactly as described by
`thresholdPassSpec` — it returns `Passed = true` whenever the data is not an
object, lacks a `"metrics"` object or the metric key, and also when the value
is numeric under an operator outside the five known ones; it returns
`Passed = false` exactly when the metric value is present and non-numeric, or
numeric and violating the bound of one of the five operators (`"=="` with
tolerance `value * tolerance`). -/
theorem checkThreshold_eq_spec (t : Threshold) (data : JSON) :
    (checkThreshold t data).passed = thresholdPassSpec t data := by
  unfold checkThreshold thresholdPassSpec metricValue
  cases data with
  | obj dataMap =>
    cases hm : lookupField dataMap "metrics" with
    | none => simp only [hm]
    | some v =>
      cases v with
      | obj metrics =>
        simp only [hm]
        cases hk : lookupField metrics t.metric with
        | none => simp only [hk]
        | some w =>
          cases w <;> simp only [hk] <;> split_ifs <;> simp [Bool.decide_and]
      | null => simp only [hm]
      | bool b => simp only [hm]
      | num q => simp only [hm]
      | str s => simp only [hm]
      | arr xs => simp only [hm]
  | null => rfl
  | bool b => rfl
  | num q => rfl
  | str s => rfl
  | arr xs => rfl

/-! ## The language of intent (`openspec/spec.go`) -/

/-- `Intent` from `spec.go`; the context map is an association list. -/
structure Intent where
  id : String
  raw : String
  goal : String
  constraints : List String
  context : List (String × String)
  createdAt : GoTime
  deriving Repr, DecidableEq

/-- `Spec` from `spec.go`. -/
structure Spec where
  id : String
  intentID : String
  contracts : List Contract
  beads : List Bead
  order : List String
  createdAt : GoTime
  deriving Repr, DecidableEq

/-! ## The SQLite store (`openspec/store.go`)

The `constraints` / `context` / check-list columns hold JSON-marshalled Go
values; since `json.Marshal` / `json.Unmarshal` round-trip `[]string`,
`map[string]string` and the check structs, the rows store those values
directly.  The one lossy column is `created_at` / `timestamp` (`INTEGER`,
holding `Unix()` seconds) and `duration_ns`.
-/

/-- A row of the `intents` table. -/
structure IntentRow where
  id : String
  raw : String
  goal : String
  constraints : List String
  context : List (String × String)
  createdAt : Int
  deriving Repr, DecidableEq

/-- A row of the `verifications` table. -/
structure VerificationRow where
  id : String
  beadID : String
  passed : Bool
  contractChecks : List ContractCheck
  invariantChecks : List InvariantCheck
  thresholdChecks : List ThresholdCheck
  propertyChecks : List PropertyCheck
  durationNs : Int
  timestamp : Int
  deriving Repr, DecidableEq

/-- The SQLite database state for the two tables cited by the round-trip
claim (the `specs` and `beads` tables behave identically with respect to
their `created_at` column). -/
structure StoreState where
  intents : List IntentRow
  verifications : List VerificationRow
  deriving Repr, DecidableEq

/-- `SQLiteStore.SaveIntent` (`store.go` lines 91-101): an `INSERT` that
fails on a duplicate primary key and stores `CreatedAt.Unix()` in the
`created_at` column. -/
def SaveIntent (s : StoreState) (intent : Intent) : Except String StoreState :=
  if s.intents.any (fun r => r.id == intent.id) then
    Except.error "UNIQUE constraint failed: intents.id"
  else
    Except.ok { s with intents := s.intents ++
      [{ id := intent.id, raw := intent.raw, goal := intent.goal,
         constraints := intent.constraints, context := intent.context,
         createdAt := intent.createdAt.unix }] }

/-- `SQLiteStore.GetIntent` (`store.go` lines 104-122): `Scan` fills `ID`,
`Raw` and `Goal` and the unmarshals fill `Constraints` and `Context`; the
scanned `created_at` value goes into a local variable that is never assigned
to the returned struct, whose `CreatedAt` keeps the zero `time.Time`. -/
def GetIntent (s : StoreState) (id : String) : Except String Intent :=
  match s.intents.find? (fun r => r.id == id) with
  | none => Except.error "sql: no rows in result set"
  | some r =>
    Except.ok { id := r.id, raw := r.raw, goal := r.goal,
                constraints := r.constraints, context := r.context,
                createdAt := GoTime.zero }

/-- `SQLiteStore.SaveVerification` (`store.go` lines 205-219): inserts under
the id `beadID-timestampUnix`, storing the passed flag, the four marshalled
check lists, `Duration.Nanoseconds()` and `Timestamp.Unix()`. -/
def SaveVerification (s : StoreState) (v : Verification) :
    Except String StoreState :=
  let id := v.beadID ++ "-" ++ toString v.timestamp.unix
  if s.verifications.any (fun r => r.id == id) then
    Except.error "UNIQUE constraint failed: verifications.id"
  else
    Except.ok { s with verifications := s.verifications ++
      [{ id := id, beadID := v.beadID, passed := v.passed,
         contractChecks := v.contractChecks,
         invariantChecks := v.invariantChecks,
         thresholdChecks := v.thresholdChecks,
         propertyChecks := v.propertyChecks,
         durationNs := v.duration, timestamp := v.timestamp.unix }] }

/-- The row selected by `ORDER BY timestamp DESC LIMIT 1` among the rows of
one bead (SQLite leaves the order among equal timestamps unspecified; this
model keeps the earliest inserted one). -/
def latestFor (rows : List VerificationRow) (beadID : String) :
    Option VerificationRow :=
  (rows.filter (fun r => r.beadID == beadID)).foldl
    (fun best r =>
      match best with
      | none => some r
      | some b => if b.timestamp < r.timestamp then some r else some b)
    none

/-- `SQLiteStore.GetVerification` (`store.go` lines 222-244): scans the latest
row for the bead; `duration_ns` and `timestamp` go into local variables that
are never assigned to the returned struct, whose `Duration` and `Timestamp`
stay zero. -/
def GetVerification (s : StoreState) (beadID : String) :
    Except String Verification :=
  match latestFor s.verifications beadID with
  | none => Except.error "sql: no rows in result set"
  | some r =>
    Except.ok { beadID := r.beadID, passed := r.passed,
                contractChecks := r.contractChecks,
                invariantChecks := r.invariantChecks,
                thresholdChecks := r.thresholdChecks,
                propertyChecks := r.propertyChecks,
                duration := 0, timestamp := GoTime.zero }

/-! ## The engine and executor (`openspec/openspec.go`, `openspec/executor.go`) -/

/-- Store and pipeline events, used to state the ordering properties of the
phases (C8).  An event is recorded for every attempted call, including the
failing ones. -/
inductive Ev where
  | saveIntent (id : String)
  | compileContracts
  | decomposeBeads
  | saveSpec (id : String)
  | saveBead (id : String)
  | getSpec (id : String)
  | getBead (id : String)
  | updateBeadStatus (id : String) (status : String)
  deriving Repr, DecidableEq

/-- `SpecResult` from `openspec.go` (lines 42-49). -/
structure SpecResult where
  spec : Spec
  contracts : List Contract
  beads : List Bead
  needsClarification : Bool
  questions : List String
  deriving Repr, DecidableEq

/-- `BeadResult` from `executor.go` (lines 74-81); a nil `Implementation`
slice is `none`. -/
structure BeadResult where
  bead : Bead
  implementation : Option String
  verification : Verification
  attempts : Nat
  successfulIdx : Int
  deriving Repr, DecidableEq

/-- `BeadFailure` from `openspec.go` (lines 58-63). -/
structure BeadFailure where
  bead : Bead
  verification : Verification
  message : String
  deriving Repr, DecidableEq

/-- `ExecuteResult` from `openspec.go` (lines 51-56). -/
structure ExecuteResult where
  results : List BeadResult
  allPassed : Bool
  failures : List BeadFailure
  deriving Repr, DecidableEq

/-- `RunResult` from `openspec.go` (lines 193-201). -/
structure RunResult where
  spec : Spec
  contracts : List Contract
  beads : List Bead
  results : List BeadResult
  allPassed : Bool
  failures : List BeadFailure
  deriving Repr, DecidableEq

/-- Oracles for `Engine.Spec`: the UUIDs and clock readings it draws
(`uuids n` / `now n` is the n-th call to `uuid.New()` / `time.Now()` made by
`Engine.Spec` itself), the AI-backed `ContractCompiler.Compile` and
`BeadDecomposer.Decompose`, and the store's save operations (`none` =
success, `some msg` = error). -/
structure EngineOracle where
  uuids : Nat → String
  now : Nat → GoTime
  compile : Intent → Except String (List Contract)
  decompose : List Contract → Except String (List Bead)
  saveIntentErr : Intent → Option String
  saveSpecErr : Spec → Option String
  saveBeadErr : Bead → Option String

/-- The bead-saving loop at the end of `Engine.Spec` (`openspec.go` lines
111-116): saves each bead in order, stopping at the first failing save; every
attempted `SaveBead` call is traced. -/
def saveBeadsLoop (o : EngineOracle) : List Bead → Except String Unit × List Ev
  | [] => (Except.ok (), [])
  | b :: rest =>
    match o.saveBeadErr b with
    | some e => (Except.error ("save bead: " ++ e), [Ev.saveBead b.id])
    | none =>
      ((saveBeadsLoop o rest).1, Ev.saveBead b.id :: (saveBeadsLoop o rest).2)

/-- `Engine.Spec` (`openspec.go` lines 66-123), with an event trace: creates
the intent with a fresh UUID, saves it, compiles contracts, decomposes beads,
creates the spec with another fresh UUID, saves the spec and then each bead.
The returned `SpecResult` literal sets only `Spec`, `Contracts` and `Beads`,
leaving `NeedsClarification` and `Questions` at their zero values. -/
def EngineSpec (o : EngineOracle) (raw : String) :
    Except String SpecResult × List Ev :=
  let intent : Intent :=
    { id := o.uuids 0, raw := raw, goal := "", constraints := [],
      context := [], createdAt := o.now 0 }
  match o.saveIntentErr intent with
  | some e => (Except.error ("save intent: " ++ e), [Ev.saveIntent intent.id])
  | none =>
    match o.compile intent with
    | Except.error e =>
      (Except.error ("compile contracts: " ++ e),
       [Ev.saveIntent intent.id, Ev.compileContracts])
    | Except.ok contracts =>
      match o.decompose contracts with
      | Except.error e =>
        (Except.error ("decompose beads: " ++ e),
         [Ev.saveIntent intent.id, Ev.compileContracts, Ev.decomposeBeads])
      | Except.ok beads =>
        let beadOrder := beads.map (fun b => b.id)
        let spec : Spec :=
          { id := o.uuids 1, intentID := intent.id, contracts := contracts,
            beads := beads, order := beadOrder, createdAt := o.now 1 }
        match o.saveSpecErr spec with
        | some e =>
          (Except.error ("save spec: " ++ e),
           [Ev.saveIntent intent.id, Ev.compileContracts, Ev.decomposeBeads,
            Ev.saveSpec spec.id])
        | none =>
          match (saveBeadsLoop o beads).1 with
          | Except.error e =>
            (Except.error e,
             [Ev.saveIntent intent.id, Ev.compileContracts, Ev.decomposeBeads,
              Ev.saveSpec spec.id] ++ (saveBeadsLoop o beads).2)
          | Except.ok _ =>
            (Except.ok { spec := spec, contracts := contracts, beads := beads,
                         needsClarification := false, questions := [] },
             [Ev.saveIntent intent.id, Ev.compileContracts, Ev.decomposeBeads,
              Ev.saveSpec spec.id] ++ (saveBeadsLoop o beads).2)

/-- One parallel generation attempt as received on the result channel of
`executeBead`: the goroutine index and either an error (from
`generateImplementation` or from `Verify`) or an implementation with its
verification.  The list order is the channel arrival order, which the
scheduler makes nondeterministic; theorems quantify over it. -/
structure AttemptOutcome where
  idx : Int
  outcome : Except String (String × Verification)

/-- The collection loop of `executeBead` (`executor.go` lines 141-153): every
arrival bumps `Attempts`; errored attempts are skipped; the first passing
verification (while `SuccessfulIdx < 0`) is kept together with its
implementation and index. -/
def collectAttempts : List AttemptOutcome → BeadResult → BeadResult
  | [], r => r
  | a :: rest, r =>
    let r1 := { r with attempts := r.attempts + 1 }
    let r2 :=
      match a.outcome with
      | Except.error _ => r1
      | Except.ok (impl, verification) =>
        if verification.passed && decide (r1.successfulIdx < 0) then
          { r1 with implementation := some impl,
                    verification := verification, successfulIdx := a.idx }
        else r1
    collectAttempts rest r2

/-- The initial `BeadResult` of `executeBead` (`executor.go` lines 88-91):
zero values with `SuccessfulIdx = -1`. -/
def initResult (bead : Bead) : BeadResult :=
  { bead := bead, implementation := none, verification := Verification.zero,
    attempts := 0, successfulIdx := -1 }

/-- The placeholder substitution at the end of `executeBead` (`executor.go`
lines 155-161): when no attempt passed and no verification was recorded, a
failed verification for the bead is substituted. -/
def finalizeResult (bead : Bead) (collected : BeadResult) : BeadResult :=
  if collected.successfulIdx < 0 && collected.verification.beadID == "" then
    { collected with verification :=
        { Verification.zero with beadID := bead.id, passed := false } }
  else collected

/-- `BeadExecutor.executeBead` (`executor.go` lines 83-164): set the bead's
status to `verifying`, collect every attempt, and finalize.  `statusErr`
models `Store.UpdateBeadStatus` (`none` = success); the second component is
the trace of attempted status updates. -/
def executeBead (statusErr : String → String → Option String) (bead : Bead)
    (arrivals : List AttemptOutcome) : Except String BeadResult × List Ev :=
  match statusErr bead.id "verifying" with
  | some e => (Except.error e, [Ev.updateBeadStatus bead.id "verifying"])
  | none =>
    (Except.ok (finalizeResult bead (collectAttempts arrivals (initResult bead))),
     [Ev.updateBeadStatus bead.id "verifying"])

/-- `BeadExecutor.ExecuteAll` (`executor.go` lines 33-72): for each bead in
order, check its `Requires` against the completed set, mark it in progress,
execute it, and record it as verified (adding its implementation to the
completed set) or failed; a failing verification does not stop the loop.
`attemptsOf` yields the arrival list of each bead's parallel attempts. -/
def ExecuteAll (statusErr : String → String → Option String)
    (attemptsOf : Bead → List AttemptOutcome) :
    List Bead → List (String × String) →
    Except String (List BeadResult) × List Ev
  | [], _ => (Except.ok [], [])
  | bead :: rest, completed =>
    if bead.requires.all (fun dep => completed.any (fun c => c.1 == dep)) then
      match statusErr bead.id "in_progress" with
      | some e => (Except.error e, [Ev.updateBeadStatus bead.id "in_progress"])
      | none =>
        let pre := Ev.updateBeadStatus bead.id "in_progress" ::
          (executeBead statusErr bead (attemptsOf bead)).2
        match (executeBead statusErr bead (attemptsOf bead)).1 with
        | Except.error e =>
          (Except.error ("execute " ++ bead.name ++ ": " ++ e), pre)
        | Except.ok r =>
          if r.verification.passed then
            match statusErr bead.id "verified" with
            | some e =>
              (Except.error e, pre ++ [Ev.updateBeadStatus bead.id "verified"])
            | none =>
              let next :=
                ExecuteAll statusErr attemptsOf rest
                  (completed ++ [(bead.id, r.implementation.getD "")])
              (match next.1 with
               | Except.error e => Except.error e
               | Except.ok rs => Except.ok (r :: rs),
               pre ++ [Ev.updateBeadStatus bead.id "verified"] ++ next.2)
          else
            match statusErr bead.id "failed" with
            | some e =>
              (Except.error e, pre ++ [Ev.updateBeadStatus bead.id "failed"])
            | none =>
              let next := ExecuteAll statusErr attemptsOf rest completed
              (match next.1 with
               | Except.error e => Except.error e
               | Except.ok rs => Except.ok (r :: rs),
               pre ++ [Ev.updateBeadStatus bead.id "failed"] ++ next.2)
    else
      (Except.error
        ("bead " ++ bead.name ++ " requires a bead which is not complete"), [])

/-- `summarizeFailure` (`openspec.go` lines 203-230): the first failing
contract check with a non-empty error list, else the first failing invariant
check, else the first failing threshold check, else `"Unknown failure"` (the
`len > 0` guards of the source are no-ops relative to searching a possibly
empty list). -/
def summarizeFailure (v : Verification) : String :=
  match v.contractChecks.find? (fun c => !c.passed && !c.errors.isEmpty) with
  | some c => "Contract: " ++ c.errors.headD ""
  | none =>
    match v.invariantChecks.find? (fun c => !c.passed) with
    | some c => "Invariant " ++ c.expression ++ ": " ++ c.message
    | none =>
      match v.thresholdChecks.find? (fun c => !c.passed) with
      | some c =>
        "Threshold: expected " ++ toString c.expected ++ c.unit ++
          ", got " ++ toString c.actual ++ c.unit
      | none => "Unknown failure"

/-- The result-collection loop of `Engine.Execute` (`openspec.go` lines
149-164): starts from `AllPassed = true` and, for every result whose
verification failed, clears `AllPassed` and appends one summarized
`BeadFailure`. -/
def collectExecuteResult (results : List BeadResult) : ExecuteResult :=
  results.foldl
    (fun acc r =>
      if r.verification.passed then acc
      else
        { acc with allPassed := false,
                   failures := acc.failures ++
                     [{ bead := r.bead, verification := r.verification,
                        message := summarizeFailure r.verification }] })
    { results := results, allPassed := true, failures := [] }

/-- The bead-loading loop of `Engine.Execute` (`openspec.go` lines 133-141). -/
def loadBeads (getBeadRes : String → Except String Bead) :
    List String → Except String (List Bead) × List Ev
  | [] => (Except.ok [], [])
  | id :: rest =>
    match getBeadRes id with
    | Except.error e =>
      (Except.error ("load bead " ++ id ++ ": " ++ e), [Ev.getBead id])
    | Except.ok b =>
      let next := loadBeads getBeadRes rest
      (match next.1 with
       | Except.error e => Except.error e
       | Except.ok bs => Except.ok (b :: bs),
       Ev.getBead id :: next.2)

/-- `Engine.Execute` (`openspec.go` lines 126-167): load the spec, load its
beads in order, run `ExecuteAll` on them, and collect the `ExecuteResult`.
`getSpecRes` / `getBeadRes` model the store reads. -/
def EngineExecute (getSpecRes : String → Except String Spec)
    (getBeadRes : String → Except String Bead)
    (statusErr : String → String → Option String)
    (attemptsOf : Bead → List AttemptOutcome) (specID : String) :
    Except String ExecuteResult × List Ev :=
  match getSpecRes specID with
  | Except.error e => (Except.error ("load spec: " ++ e), [Ev.getSpec specID])
  | Except.ok spec =>
    match (loadBeads getBeadRes spec.order).1 with
    | Except.error e =>
      (Except.error e, Ev.getSpec specID :: (loadBeads getBeadRes spec.order).2)
    | Except.ok beads =>
      match (ExecuteAll statusErr attemptsOf beads []).1 with
      | Except.error e =>
        (Except.error ("execute beads: " ++ e),
         Ev.getSpec specID :: ((loadBeads getBeadRes spec.order).2 ++
           (ExecuteAll statusErr attemptsOf beads []).2))
      | Except.ok results =>
        (Except.ok (collectExecuteResult results),
         Ev.getSpec specID :: ((loadBeads getBeadRes spec.order).2 ++
           (ExecuteAll statusErr attemptsOf beads []).2))

/-- `Engine.Run` (`openspec.go` lines 170-191): the spec phase followed by
the execute phase on the fresh spec's id, with the concatenated event trace.
The store reads of the execute phase (`getSpecRes`, `getBeadRes`) are oracle
parameters; in the running system they read back what the spec phase wrote. -/
def EngineRun (o : EngineOracle) (getSpecRes : String → Except String Spec)
    (getBeadRes : String → Except String Bead)
    (statusErr : String → String → Option String)
    (attemptsOf : Bead → List AttemptOutcome) (raw : String) :
    Except String RunResult × List Ev :=
  match (EngineSpec o raw).1 with
  | Except.error e => (Except.error ("spec phase: " ++ e), (EngineSpec o raw).2)
  | Except.ok r =>
    match (EngineExecute getSpecRes getBeadRes statusErr attemptsOf r.spec.id).1 with
    | Except.error e =>
      (Except.error ("execute phase: " ++ e),
       (EngineSpec o raw).2 ++
         (EngineExecute getSpecRes getBeadRes statusErr attemptsOf r.spec.id).2)
    | Except.ok ex =>
      (Except.ok { spec := r.spec, contracts := r.contracts, beads := r.beads,
                   results := ex.results, allPassed := ex.allPassed,
                   failures := ex.failures },
       (EngineSpec o raw).2 ++
         (EngineExecute getSpecRes getBeadRes statusErr attemptsOf r.spec.id).2)

/-! ## C2 — store round-trips drop the time fields -/

/-- The concrete intent of C2's failing input: created at Unix time
1700000000. -/
def intentX : Intent :=
  { id := "intent-1", raw := "add user authentication", goal := "",
    constraints := [], context := [], createdAt := ⟨1700000000, 0⟩ }

/-- The concrete verification of C2's failing input: duration 5000ns,
timestamp Unix 1700000000. -/
def verifX : Verification :=
  { beadID := "bead-1", passed := true, contractChecks := [],
    invariantChecks := [], thresholdChecks := [], propertyChecks := [],
    duration := 5000, timestamp := ⟨1700000000, 0⟩ }

/-- C2: saving `intentX` to an empty store and loading it back yields an
intent whose `CreatedAt` is the zero time — `GetIntent` scans the
`created_at` column into a local variable and never assigns it — and likewise
the verification round-trip zeroes `Duration` and `Timestamp`; since the
saved values are non-zero there, the loaded values differ from the saved
ones, contradicting store-then-load equality. -/
theorem store_roundtrip_drops_times :
    (SaveIntent ⟨[], []⟩ intentX).bind (fun s => GetIntent s "intent-1") =
      Except.ok { intentX with createdAt := GoTime.zero } ∧
    intentX.createdAt ≠ GoTime.zero ∧
    (SaveVerification ⟨[], []⟩ verifX).bind (fun s => GetVerification s "bead-1") =
      Except.ok { verifX with duration := 0, timestamp := GoTime.zero } ∧
    verifX.duration ≠ 0 ∧ verifX.timestamp ≠ GoTime.zero := by
  refine ⟨rfl, by decide, rfl, by decide, by decide⟩

/-! ## C3 / C5 — the spec phase -/

/-- The Specification id carried by a successful spec-phase result. -/
def specIdOf : Except String SpecResult → Option String
  | Except.ok r => some r.spec.id
  | Except.error _ => none

/-- An engine oracle whose AI compiler and decomposer give fixed (identical
across runs) responses and whose store saves succeed; `tag` distinguishes the
UUID streams drawn by different runs. -/
def runOracle (tag : String) : EngineOracle where
  uuids := fun n => tag ++ toString n
  now := fun _ => GoTime.zero
  compile := fun _ => Except.ok []
  decompose := fun _ => Except.ok []
  saveIntentErr := fun _ => none
  saveSpecErr := fun _ => none
  saveBeadErr := fun _ => none

/-- C3 counterexample: two spec-phase runs on the identical raw message with
identical AI responses (`runOracle "a-"` and `runOracle "b-"` share the same
compile/decompose functions) but different draws from the UUID generator
produce different Specification ids — the id is a fresh `uuid.New()`, not a
stable hash of the inputs. -/
theorem spec_id_not_deterministic :
    specIdOf (EngineSpec (runOracle "a-") "add auth").1 = some "a-1" ∧
    specIdOf (EngineSpec (runOracle "b-") "add auth").1 = some "b-1" ∧
    ("a-1" : String) ≠ "b-1" := by
  refine ⟨rfl, rfl, by decide⟩

/-- C3 (amended): the Specification id produced by a successful spec phase is
the second value drawn from the UUID generator during that run — freshly
generated, not derived from a hash of the normalized intent, the relevant
files or the assertion texts; two runs agree on the id only when their UUID
draws agree. -/
theorem spec_id_is_fresh_uuid (o : EngineOracle) (raw : String) (r : SpecResult)
    (h : (EngineSpec o raw).1 = Except.ok r) : r.spec.id = o.uuids 1 := by
  simp only [EngineSpec] at h
  repeat' split at h
  any_goals exact Except.noConfusion h
  injection h with h'
  subst h'
  rfl

/-- The concrete result of the spec phase under `runOracle "a-"`. -/
def rA : SpecResult :=
  { spec := { id := "a-1", intentID := "a-0", contracts := [], beads := [],
              order := [], createdAt := GoTime.zero },
    contracts := [], beads := [], needsClarification := false, questions := [] }

/-- Witness for `spec_id_is_fresh_uuid` at the concrete run
`runOracle "a-"` on `"add auth"`. -/
theorem spec_id_is_fresh_uuid_witness :
    (EngineSpec (runOracle "a-") "add auth").1 = Except.ok rA ∧
    rA.spec.id = (runOracle "a-").uuids 1 :=
  ⟨rfl, spec_id_is_fresh_uuid (runOracle "a-") "add auth" rA rfl⟩

/-- C5: `Engine.Spec` has no clarification path — whatever the raw message
(however vague) and whatever the AI returns, a successful spec phase yields
`NeedsClarification = false` with no questions, and a Specification has been
created and saved (a `SaveSpec` event for its id is in the trace) before
returning. -/
theorem spec_never_clarifies (o : EngineOracle) (raw : String) (r : SpecResult)
    (h : (EngineSpec o raw).1 = Except.ok r) :
    r.needsClarification = false ∧ r.questions = [] ∧
    Ev.saveSpec r.spec.id ∈ (EngineSpec o raw).2 := by
  revert h
  simp only [EngineSpec]
  repeat' split
  all_goals intro h
  any_goals exact Except.noConfusion h
  injection h with h'
  subst h'
  refine ⟨rfl, rfl, ?_⟩
  simp

/-- The concrete result of the spec phase under `runOracle "a-"` on the vague
message `"Make it better"`. -/
def rMake : SpecResult :=
  { spec := { id := "a-1", intentID := "a-0", contracts := [], beads := [],
              order := [], createdAt := GoTime.zero },
    contracts := [], beads := [], needsClarification := false, questions := [] }

/-- Witness for `spec_never_clarifies` on the vague raw message
`"Make it better"` of the specification's clarification scenario. -/
theorem spec_never_clarifies_witness :
    (EngineSpec (runOracle "a-") "Make it better").1 = Except.ok rMake ∧
    (rMake.needsClarification = false ∧ rMake.questions = [] ∧
     Ev.saveSpec rMake.spec.id ∈ (EngineSpec (runOracle "a-") "Make it better").2) :=
  ⟨rfl, spec_never_clarifies (runOracle "a-") "Make it better" rMake rfl⟩

/-! ## C7 — attempt errors are isolated -/

/-- A status-update oracle that always succeeds. -/
def stOk : String → String → Option String := fun _ _ => none

/-- An attempts oracle under which every generation attempt errors before
producing a result (no arrivals carry a verification). -/
def noAttempts : Bead → List AttemptOutcome := fun _ => []

/-- The `attempts` counter does not influence the rest of the collection
loop: collecting from two initial results that differ only in `attempts`
yields the same selection, with `attempts` increased by the arrival count. -/
theorem collectAttempts_attempts_irrel (l : List AttemptOutcome)
    (bead : Bead) (impl : Option String) (verif : Verification)
    (n m : Nat) (idx : Int) :
    collectAttempts l ⟨bead, impl, verif, n, idx⟩ =
      { collectAttempts l ⟨bead, impl, verif, m, idx⟩ with
        attempts := n + l.length } := by
  induction l generalizing bead impl verif n m idx with
  | nil => simp [collectAttempts]
  | cons a rest ih =>
    obtain ⟨ai, outcome⟩ := a
    simp only [collectAttempts]
    cases outcome with
    | error er =>
      rw [ih]
      have h2 : n + 1 + rest.length = n + (rest.length + 1) := by omega
      rw [List.length_cons, h2]
    | ok p =>
      obtain ⟨impl2, v⟩ := p
      by_cases hv : (v.passed && decide (idx < 0)) = true
      · simp only [hv, if_true]
        rw [ih]
        have h2 : n + 1 + rest.length = n + (rest.length + 1) := by omega
        rw [List.length_cons, h2]
      · simp only [Bool.not_eq_true] at hv
        simp only [hv, Bool.false_eq_true, if_false]
        rw [ih]
        have h2 : n + 1 + rest.length = n + (rest.length + 1) := by omega
        rw [List.length_cons, h2]

/-- Every arrival bumps the `attempts` counter by one. -/
theorem collectAttempts_attempts (l : List AttemptOutcome) (r : BeadResult) :
    (collectAttempts l r).attempts = r.attempts + l.length := by
  obtain ⟨bead, impl, verif, att, idx⟩ := r
  rw [collectAttempts_attempts_irrel l bead impl verif att att idx]

/-- Inserting an errored attempt anywhere among the arrivals leaves the
collected result unchanged except for one extra counted attempt. -/
theorem collectAttempts_error_skip (xs ys : List AttemptOutcome) (i : Int)
    (e : String) (r : BeadResult) :
    collectAttempts (xs ++ { idx := i, outcome := Except.error e } :: ys) r =
      { collectAttempts (xs ++ ys) r with
        attempts := (collectAttempts (xs ++ ys) r).attempts + 1 } := by
  induction xs generalizing r with
  | nil =>
    obtain ⟨bead, impl, verif, att, idx⟩ := r
    simp only [List.nil_append, collectAttempts]
    rw [collectAttempts_attempts_irrel ys bead impl verif (att + 1) att idx,
      collectAttempts_attempts ys ⟨bead, impl, verif, att, idx⟩]
    have h2 : att + 1 + ys.length = att + ys.length + 1 := by omega
    rw [h2]
  | cons a xs ih =>
    obtain ⟨ai, outcome⟩ := a
    simp only [List.cons_append, collectAttempts]
    cases outcome with
    | error er => exact ih _
    | ok p =>
      obtain ⟨impl2, v⟩ := p
      by_cases hv : (v.passed && decide (r.successfulIdx < 0)) = true
      · simp only [hv, if_true]
        exact ih _
      · simp only [Bool.not_eq_true] at hv
        simp only [hv, Bool.false_eq_true, if_false]
        exact ih _

/-- `finalizeResult` only inspects `successfulIdx` and the verification, so
it commutes with setting the `attempts` counter. -/
theorem finalizeResult_attempts_set (bead : Bead) (c : BeadResult) (n : Nat) :
    finalizeResult bead { c with attempts := n } =
      { finalizeResult bead c with attempts := n } := by
  obtain ⟨b, impl, verif, att, idx⟩ := c
  simp only [finalizeResult]
  split_ifs <;> rfl

/-- `finalizeResult` preserves the `attempts` counter. -/
theorem finalizeResult_attempts (bead : Bead) (c : BeadResult) :
    (finalizeResult bead c).attempts = c.attempts := by
  simp only [finalizeResult]
  split_ifs <;> rfl

/-- C7: an error in one parallel generation attempt never fails its sibling
attempts or the batch.  Whenever the initial status update succeeds,
`executeBead` returns `Except.ok` for every arrival list — even when some or
all attempts errored — with every attempt counted (`Attempts` equals the
number of terminated attempts, i.e. the batch waits for all of them); and
inserting an errored attempt anywhere among the arrivals changes nothing in
the returned `BeadResult` except the attempt count. -/
theorem executeBead_isolates_attempt_errors
    (statusErr : String → String → Option String) (bead : Bead)
    (hst : statusErr bead.id "verifying" = none)
    (xs ys : List AttemptOutcome) (i : Int) (e : String) :
    (∀ arrivals : List AttemptOutcome, ∃ r : BeadResult,
       executeBead statusErr bead arrivals =
         (Except.ok r, [Ev.updateBeadStatus bead.id "verifying"]) ∧
       r.attempts = arrivals.length) ∧
    (∃ r' : BeadResult,
       executeBead statusErr bead (xs ++ ys) =
         (Except.ok r', [Ev.updateBeadStatus bead.id "verifying"]) ∧
       executeBead statusErr bead
           (xs ++ { idx := i, outcome := Except.error e } :: ys) =
         (Except.ok { r' with attempts := r'.attempts + 1 },
          [Ev.updateBeadStatus bead.id "verifying"])) := by
  constructor
  · intro arrivals
    refine ⟨finalizeResult bead (collectAttempts arrivals (initResult bead)),
      ?_, ?_⟩
    · simp only [executeBead, hst]
    · rw [finalizeResult_attempts, collectAttempts_attempts]
      simp [initResult]
  · refine ⟨finalizeResult bead (collectAttempts (xs ++ ys) (initResult bead)),
      ?_, ?_⟩
    · simp only [executeBead, hst]
    · simp only [executeBead, hst]
      rw [collectAttempts_error_skip, finalizeResult_attempts_set,
        finalizeResult_attempts]

/-- Witness for `executeBead_isolates_attempt_errors` at the always-ok status
oracle, the bead `warnBead`, empty sibling lists and the errored attempt
`(0, error "boom")`. -/
theorem executeBead_isolates_attempt_errors_witness :
    stOk warnBead.id "verifying" = none ∧
    ((∀ arrivals : List AttemptOutcome, ∃ r : BeadResult,
       executeBead stOk warnBead arrivals =
         (Except.ok r, [Ev.updateBeadStatus warnBead.id "verifying"]) ∧
       r.attempts = arrivals.length) ∧
    (∃ r' : BeadResult,
       executeBead stOk warnBead ([] ++ []) =
         (Except.ok r', [Ev.updateBeadStatus warnBead.id "verifying"]) ∧
       executeBead stOk warnBead
           ([] ++ { idx := 0, outcome := Except.error "boom" } :: []) =
         (Except.ok { r' with attempts := r'.attempts + 1 },
          [Ev.updateBeadStatus warnBead.id "verifying"]))) :=
  ⟨rfl, executeBead_isolates_attempt_errors stOk warnBead rfl [] [] 0 "boom"⟩

/-! ## C6 — "no survivors" handling in `Engine.Execute` -/

/-- Whether an `Except` result is an error. -/
def isErr {ε α : Type} : Except ε α → Bool
  | Except.error _ => true
  | Except.ok _ => false

/-- The empty contract, used by the executor examples. -/
def emptyContract : Contract :=
  { id := "contract-0", name := "", description := "", schema := "",
    invariants := [], thresholds := [], examples := [], metadata := [] }

/-- A bead without dependencies. -/
def depBeadA : Bead :=
  { id := "bead-a", name := "A", description := "", contract := emptyContract,
    requires := [], produces := [], size := "xs", status := "ready",
    createdAt := GoTime.zero }

/-- A bead that requires `depBeadA`. -/
def depBeadB : Bead :=
  { id := "bead-b", name := "B", description := "", contract := emptyContract,
    requires := ["bead-a"], produces := [], size := "xs", status := "ready",
    createdAt := GoTime.zero }

/-- A spec with two beads where the second requires the first. -/
def depSpec : Spec :=
  { id := "spec-1", intentID := "intent-1", contracts := [emptyContract],
    beads := [depBeadA, depBeadB], order := ["bead-a", "bead-b"],
    createdAt := GoTime.zero }

/-- A spec-lookup oracle resolving only `depSpec`. -/
def getSpecDep : String → Except String Spec := fun id =>
  if id == "spec-1" then Except.ok depSpec
  else Except.error "sql: no rows in result set"

/-- A bead-lookup oracle resolving `depBeadA` and `depBeadB`. -/
def getBeadDep : String → Except String Bead := fun id =>
  if id == "bead-a" then Except.ok depBeadA
  else if id == "bead-b" then Except.ok depBeadB
  else Except.error "sql: no rows in result set"

/-- C6 counterexample: on the spec whose second bead requires the first, with
zero passing verifications (no attempt produces a verification at all),
`Engine.Execute` raises an error — `ExecuteAll` aborts with "requires a bead
which is not complete" when it reaches the second bead, because the failed
first bead was never added to the completed set — instead of returning the
claimed normal `ExecuteResult`. -/
theorem execute_errors_on_failed_dependency :
    isErr (EngineExecute getSpecDep getBeadDep stOk noAttempts "spec-1").1 = true := by
  rfl

/-- Collecting arrivals none of which carries a passing verification leaves
the initial result unchanged apart from the attempt count. -/
theorem collectAttempts_all_fail (l : List AttemptOutcome)
    (hl : ∀ a ∈ l, ∀ impl v, a.outcome = Except.ok (impl, v) → v.passed = false)
    (r : BeadResult) :
    collectAttempts l r = { r with attempts := r.attempts + l.length } := by
  induction l generalizing r with
  | nil =>
    obtain ⟨b, im, v, att, x⟩ := r
    simp [collectAttempts]
  | cons a rest ih =>
    obtain ⟨ai, outcome⟩ := a
    obtain ⟨b, im, v, att, x⟩ := r
    simp only [collectAttempts]
    cases outcome with
    | error er =>
      rw [ih (fun a' ha' impl v' h' => hl a' (List.mem_cons_of_mem _ ha') impl v' h')]
      have h2 : att + 1 + rest.length = att + (rest.length + 1) := by omega
      rw [List.length_cons, h2]
    | ok p =>
      obtain ⟨impl, vr⟩ := p
      have hv : vr.passed = false :=
        hl ⟨ai, Except.ok (impl, vr)⟩ (List.mem_cons_self _ _) impl vr rfl
      simp only [hv, Bool.false_and, Bool.false_eq_true, if_false]
      rw [ih (fun a' ha' impl' v' h' => hl a' (List.mem_cons_of_mem _ ha') impl' v' h')]
      have h2 : att + 1 + rest.length = att + (rest.length + 1) := by omega
      rw [List.length_cons, h2]

/-- When no attempt passes, `executeBead` returns the failed placeholder
verification for the bead, with every attempt counted. -/
theorem executeBead_all_fail (statusErr : String → String → Option String)
    (bead : Bead) (hst : statusErr bead.id "verifying" = none)
    (arrivals : List AttemptOutcome)
    (hfail : ∀ a ∈ arrivals, ∀ impl v,
      a.outcome = Except.ok (impl, v) → v.passed = false) :
    executeBead statusErr bead arrivals =
      (Except.ok
        { bead := bead, implementation := none,
          verification :=
            { Verification.zero with beadID := bead.id, passed := false },
          attempts := arrivals.length, successfulIdx := -1 },
       [Ev.updateBeadStatus bead.id "verifying"]) := by
  simp only [executeBead, hst]
  rw [collectAttempts_all_fail arrivals hfail (initResult bead)]
  simp [finalizeResult, initResult, Verification.zero]

/-- Under satisfied (empty) requirements, successful status updates and no
passing verification anywhere, `ExecuteAll` returns `Except.ok` with one
(failed) result per bead. -/
theorem ExecuteAll_all_fail (statusErr : String → String → Option String)
    (attemptsOf : Bead → List AttemptOutcome) (beads : List Bead)
    (completed : List (String × String))
    (hst : ∀ id st, statusErr id st = none)
    (hreq : ∀ b ∈ beads, b.requires = [])
    (hfail : ∀ b ∈ beads, ∀ a ∈ attemptsOf b, ∀ impl v,
      a.outcome = Except.ok (impl, v) → v.passed = false) :
    ∃ results : List BeadResult,
      (ExecuteAll statusErr attemptsOf beads completed).1 = Except.ok results ∧
      results.length = beads.length ∧
      ∀ r ∈ results, r.verification.passed = false := by
  induction beads generalizing completed with
  | nil => exact ⟨[], rfl, rfl, by simp⟩
  | cons bead rest ih =>
    obtain ⟨results, h1, h2, h3⟩ := ih completed
      (fun b hb => hreq b (List.mem_cons_of_mem _ hb))
      (fun b hb => hfail b (List.mem_cons_of_mem _ hb))
    refine ⟨{ bead := bead, implementation := none,
              verification :=
                { Verification.zero with beadID := bead.id, passed := false },
              attempts := (attemptsOf bead).length, successfulIdx := -1 }
              :: results, ?_, by simp [h2], ?_⟩
    · simp only [ExecuteAll, hreq bead (List.mem_cons_self _ _), List.all_nil,
        if_true, hst bead.id "in_progress",
        executeBead_all_fail statusErr bead (hst bead.id "verifying")
          (attemptsOf bead) (hfail bead (List.mem_cons_self _ _)),
        Bool.false_eq_true, if_false, hst bead.id "failed", h1]
    · intro r hr
      rcases List.mem_cons.mp hr with h | h
      · subst h; rfl
      · exact h3 r h

/-- With every recorded verification failed, the result-collection loop of
`Engine.Execute` clears `AllPassed` (for a non-empty list) and emits one
summarized failure per result, in order. -/
theorem collectExecuteResult_loop_all_fail (l : List BeadResult)
    (acc : ExecuteResult) (h : ∀ r ∈ l, r.verification.passed = false) :
    l.foldl
      (fun acc r =>
        if r.verification.passed then acc
        else
          { acc with allPassed := false,
                     failures := acc.failures ++
                       [{ bead := r.bead, verification := r.verification,
                          message := summarizeFailure r.verification }] }) acc =
      { acc with allPassed := acc.allPassed && l.isEmpty,
                 failures := acc.failures ++ l.map (fun r =>
                   { bead := r.bead, verification := r.verification,
                     message := summarizeFailure r.verification }) } := by
  induction l generalizing acc with
  | nil =>
    obtain ⟨rs, ap, fl⟩ := acc
    simp
  | cons r rest ihl =>
    have hr : r.verification.passed = false := h r (List.mem_cons_self _ _)
    simp only [List.foldl_cons, hr, Bool.false_eq_true, if_false]
    rw [ihl _ (fun r' hr' => h r' (List.mem_cons_of_mem _ hr'))]
    obtain ⟨rs, ap, fl⟩ := acc
    simp

/-- `collectExecuteResult` on all-failed results. -/
theorem collectExecuteResult_all_fail (results : List BeadResult)
    (h : ∀ r ∈ results, r.verification.passed = false) :
    collectExecuteResult results =
      { results := results, allPassed := results.isEmpty,
        failures := results.map (fun r =>
          { bead := r.bead, verification := r.verification,
            message := summarizeFailure r.verification }) } := by
  unfold collectExecuteResult
  rw [collectExecuteResult_loop_all_fail results _ h]
  simp

/-- C6 (amended): for a spec whose beads have no dependencies (empty
`Requires`), with successful store operations and zero passing verifications,
`Engine.Execute` returns a normal, non-error `ExecuteResult` with
`AllPassed = false` and exactly one summarized `BeadFailure` per (failed)
bead.  (When a failed bead is required by a later bead, `ExecuteAll` instead
aborts with an error.) -/
theorem execute_no_survivors_is_ok (getSpecRes : String → Except String Spec)
    (getBeadRes : String → Except String Bead)
    (statusErr : String → String → Option String)
    (attemptsOf : Bead → List AttemptOutcome)
    (specID : String) (sp : Spec) (beads : List Bead)
    (hspec : getSpecRes specID = Except.ok sp)
    (hload : (loadBeads getBeadRes sp.order).1 = Except.ok beads)
    (hne : beads ≠ [])
    (hst : ∀ id st, statusErr id st = none)
    (hreq : ∀ b ∈ beads, b.requires = [])
    (hfail : ∀ b ∈ beads, ∀ a ∈ attemptsOf b, ∀ impl v,
      a.outcome = Except.ok (impl, v) → v.passed = false) :
    ∃ results : List BeadResult,
      (EngineExecute getSpecRes getBeadRes statusErr attemptsOf specID).1 =
        Except.ok
          { results := results, allPassed := false,
            failures := results.map (fun r =>
              { bead := r.bead, verification := r.verification,
                message := summarizeFailure r.verification }) } ∧
      results.length = beads.length ∧
      ∀ r ∈ results, r.verification.passed = false := by
  obtain ⟨results, h1, h2, h3⟩ :=
    ExecuteAll_all_fail statusErr attemptsOf beads [] hst hreq hfail
  have hre : results.isEmpty = false := by
    cases hres : results with
    | nil =>
      subst hres
      simp only [List.length_nil] at h2
      exact absurd (List.length_eq_zero.mp h2.symm) hne
    | cons x tl => rfl
  refine ⟨results, ?_, h2, h3⟩
  simp only [EngineExecute, hspec, hload, h1]
  rw [collectExecuteResult_all_fail results h3, hre]

/-- A one-bead spec without dependencies. -/
def soloSpec : Spec :=
  { id := "spec-2", intentID := "intent-1", contracts := [emptyContract],
    beads := [depBeadA], order := ["bead-a"], createdAt := GoTime.zero }

/-- A spec-lookup oracle resolving only `soloSpec`. -/
def getSpecSolo : String → Except String Spec := fun id =>
  if id == "spec-2" then Except.ok soloSpec
  else Except.error "sql: no rows in result set"

/-- A bead-lookup oracle resolving only `depBeadA`. -/
def getBeadSolo : String → Except String Bead := fun id =>
  if id == "bead-a" then Except.ok depBeadA
  else Except.error "sql: no rows in result set"

/-- Witness for `execute_no_survivors_is_ok` on the dependency-free one-bead
spec `soloSpec` with no passing attempts. -/
theorem execute_no_survivors_is_ok_witness :
    getSpecSolo "spec-2" = Except.ok soloSpec ∧
    ∃ results : List BeadResult,
      (EngineExecute getSpecSolo getBeadSolo stOk noAttempts "spec-2").1 =
        Except.ok
          { results := results, allPassed := false,
            failures := results.map (fun r =>
              { bead := r.bead, verification := r.verification,
                message := summarizeFailure r.verification }) } ∧
      results.length = [depBeadA].length ∧
      ∀ r ∈ results, r.verification.passed = false := by
  refine ⟨rfl, execute_no_survivors_is_ok getSpecSolo getBeadSolo stOk noAttempts
    "spec-2" soloSpec [depBeadA] rfl rfl (by simp) (fun _ _ => rfl) ?_ ?_⟩
  · intro b hb
    rcases List.mem_singleton.mp hb with rfl
    rfl
  · intro b hb a ha
    simp [noAttempts] at ha

/-! ## C8 — artifacts persist before the next phase begins -/

/-- Classifier: events that persist the spec-phase artifacts (the spec and
its beads). -/
def Ev.isSaveArtifact : Ev → Bool
  | Ev.saveSpec _ => true
  | Ev.saveBead _ => true
  | _ => false

/-- Classifier: store events of the execute phase. -/
def Ev.isExecPhase : Ev → Bool
  | Ev.getSpec _ => true
  | Ev.getBead _ => true
  | Ev.updateBeadStatus _ _ => true
  | _ => false

/-- The bead-saving loop emits no execute-phase event. -/
theorem saveBeadsLoop_no_exec (o : EngineOracle) (bs : List Bead) :
    ((saveBeadsLoop o bs).2).all (fun e => !e.isExecPhase) = true := by
  induction bs with
  | nil => rfl
  | cons b rest ih =>
    simp only [saveBeadsLoop]
    cases o.saveBeadErr b with
    | some e => rfl
    | none =>
      simp only [List.all_cons, ih, Bool.and_true]
      rfl

/-- The spec phase emits no execute-phase event. -/
theorem specTrace_no_exec (o : EngineOracle) (raw : String) :
    ((EngineSpec o raw).2).all (fun e => !e.isExecPhase) = true := by
  simp only [EngineSpec]
  repeat' split
  all_goals dsimp only
  all_goals simp only [List.all_append, List.all_cons, List.all_nil,
    saveBeadsLoop_no_exec, Bool.and_true, Bool.true_and]
  all_goals rfl

/-- The spec phase's first event is always the intent save. -/
theorem specTrace_cons (o : EngineOracle) (raw : String) :
    ∃ t, (EngineSpec o raw).2 = Ev.saveIntent (o.uuids 0) :: t := by
  simp only [EngineSpec]
  repeat' split
  all_goals exact ⟨_, rfl⟩

/-- `executeBead` emits no artifact-save event. -/
theorem executeBead_no_save (statusErr : String → String → Option String)
    (bead : Bead) (arrivals : List AttemptOutcome) :
    ((executeBead statusErr bead arrivals).2).all
      (fun e => !e.isSaveArtifact) = true := by
  simp only [executeBead]
  repeat' split
  all_goals rfl

/-- `ExecuteAll` emits no artifact-save event. -/
theorem ExecuteAll_no_save (statusErr : String → String → Option String)
    (attemptsOf : Bead → List AttemptOutcome) (beads : List Bead)
    (completed : List (String × String)) :
    ((ExecuteAll statusErr attemptsOf beads completed).2).all
      (fun e => !e.isSaveArtifact) = true := by
  induction beads generalizing completed with
  | nil => rfl
  | cons bead rest ih =>
    simp only [ExecuteAll]
    repeat' split
    all_goals dsimp only
    all_goals simp only [List.all_append, List.all_cons, List.all_nil,
      executeBead_no_save, ih, Bool.and_true, Bool.true_and]
    all_goals rfl

/-- The bead-loading loop emits no artifact-save event. -/
theorem loadBeads_no_save (getBeadRes : String → Except String Bead)
    (ids : List String) :
    ((loadBeads getBeadRes ids).2).all (fun e => !e.isSaveArtifact) = true := by
  induction ids with
  | nil => rfl
  | cons id rest ih =>
    simp only [loadBeads]
    split
    · rfl
    · dsimp only
      simp only [List.all_cons, ih, Bool.and_true]
      rfl

/-- The execute phase emits no artifact-save event. -/
theorem execTrace_no_save (getSpecRes : String → Except String Spec)
    (getBeadRes : String → Except String Bead)
    (statusErr : String → String → Option String)
    (attemptsOf : Bead → List AttemptOutcome) (specID : String) :
    ((EngineExecute getSpecRes getBeadRes statusErr attemptsOf specID).2).all
      (fun e => !e.isSaveArtifact) = true := by
  simp only [EngineExecute]
  repeat' split
  all_goals dsimp only
  all_goals simp only [List.all_append, List.all_cons, List.all_nil,
    loadBeads_no_save, ExecuteAll_no_save, Bool.and_true, Bool.true_and]
  all_goals rfl

/-- The trace of `Engine.Run` is the spec-phase trace, optionally followed by
the execute-phase trace on the fresh spec's id. -/
theorem EngineRun_trace (o : EngineOracle)
    (getSpecRes : String → Except String Spec)
    (getBeadRes : String → Except String Bead)
    (statusErr : String → String → Option String)
    (attemptsOf : Bead → List AttemptOutcome) (raw : String) :
    (EngineRun o getSpecRes getBeadRes statusErr attemptsOf raw).2 =
        (EngineSpec o raw).2 ∨
    ∃ r : SpecResult,
      (EngineSpec o raw).1 = Except.ok r ∧
      (EngineRun o getSpecRes getBeadRes statusErr attemptsOf raw).2 =
        (EngineSpec o raw).2 ++
          (EngineExecute getSpecRes getBeadRes statusErr attemptsOf r.spec.id).2 := by
  simp only [EngineRun]
  split
  · exact Or.inl rfl
  · next r heq =>
    split
    · exact Or.inr ⟨r, heq, rfl⟩
    · exact Or.inr ⟨r, heq, rfl⟩

/-- In a list whose first block has no execute-phase events and whose second
block has no artifact-save events, every artifact save precedes every
execute-phase event. -/
theorem no_mix_append {l1 l2 : List Ev}
    (h1 : l1.all (fun e => !e.isExecPhase) = true)
    (h2 : l2.all (fun e => !e.isSaveArtifact) = true)
    {i j : Nat} {ei ej : Ev}
    (hi : (l1 ++ l2)[i]? = some ei) (hj : (l1 ++ l2)[j]? = some ej)
    (hexec : ei.isExecPhase = true) (hsave : ej.isSaveArtifact = true) :
    j < i := by
  have hi' : l1.length ≤ i := by
    by_contra hlt
    push_neg at hlt
    rw [List.getElem?_append_left hlt] at hi
    have := List.all_eq_true.mp h1 ei (List.getElem?_mem hi)
    simp [hexec] at this
  have hj' : j < l1.length := by
    by_contra hge
    push_neg at hge
    rw [List.getElem?_append_right hge] at hj
    have := List.all_eq_true.mp h2 ej (List.getElem?_mem hj)
    simp [hsave] at this
  omega

/-- C8: in the event trace of a complete `Engine.Run`, the intent save is the
very first event — so the Intent is persisted before contract compilation
starts — and every artifact save of the spec phase (the spec itself and each
of its beads) occurs strictly before every store event of the execute phase
(spec/bead loads and bead status updates). -/
theorem run_persists_before_execute (o : EngineOracle)
    (getSpecRes : String → Except String Spec)
    (getBeadRes : String → Except String Bead)
    (statusErr : String → String → Option String)
    (attemptsOf : Bead → List AttemptOutcome) (raw : String) :
    (EngineRun o getSpecRes getBeadRes statusErr attemptsOf raw).2.head? =
      some (Ev.saveIntent (o.uuids 0)) ∧
    ∀ i j : Nat, ∀ ei ej : Ev,
      (EngineRun o getSpecRes getBeadRes statusErr attemptsOf raw).2[i]? =
        some ei →
      (EngineRun o getSpecRes getBeadRes statusErr attemptsOf raw).2[j]? =
        some ej →
      ei.isExecPhase = true → ej.isSaveArtifact = true → j < i := by
  obtain ⟨t, ht⟩ := specTrace_cons o raw
  rcases EngineRun_trace o getSpecRes getBeadRes statusErr attemptsOf raw with
    htr | ⟨r, hok, htr⟩
  · constructor
    · rw [htr, ht]; rfl
    · intro i j ei ej hi hj hexec hsave
      rw [htr] at hi
      have := List.all_eq_true.mp (specTrace_no_exec o raw) ei (List.getElem?_mem hi)
      simp [hexec] at this
  · constructor
    · rw [htr, ht]; rfl
    · intro i j ei ej hi hj hexec hsave
      rw [htr] at hi hj
      exact no_mix_append (specTrace_no_exec o raw)
        (execTrace_no_save getSpecRes getBeadRes statusErr attemptsOf r.spec.id)
        hi hj hexec hsave

/-- A spec-lookup oracle that always reports no rows. -/
def gsErr : String → Except String Spec :=
  fun _ => Except.error "sql: no rows in result set"

/-- A bead-lookup oracle that always reports no rows. -/
def gbErr : String → Except String Bead :=
  fun _ => Except.error "sql: no rows in result set"

/-- Witness for `run_persists_before_execute` on a concrete run whose trace
holds the spec save at index 3 and the first execute-phase event (the spec
load) at index 4. -/
theorem run_persists_before_execute_witness :
    (EngineRun (runOracle "a-") gsErr gbErr stOk noAttempts "add auth").2[4]? =
      some (Ev.getSpec "a-1") ∧
    (EngineRun (runOracle "a-") gsErr gbErr stOk noAttempts "add auth").2[3]? =
      some (Ev.saveSpec "a-1") ∧
    (3 : Nat) < 4 :=
  ⟨rfl, rfl,
   (run_persists_before_execute (runOracle "a-") gsErr gbErr stOk noAttempts
      "add auth").2 4 3 (Ev.getSpec "a-1") (Ev.saveSpec "a-1") rfl rfl rfl rfl⟩

/-! ## The hypr-notifier plugin (`src/hypr-notifier.ts`) -/

/-- Notification urgency levels (`hypr-notifier.ts` line 17). -/
inductive Urgency where
  | low
  | normal
  | critical
  deriving Repr, DecidableEq

/-- A per-event-key table (the `icons` / `urgency` / `messages` / `category`
sub-records of `HyprlandConfig`). -/
structure KeyTable (α : Type) where
  permission : α
  session : α
  idle : α
  deriving Repr, DecidableEq

/-- `HyprlandConfig` from `hypr-notifier.ts` (lines 19-27). -/
structure HyprlandConfig where
  notification : Bool
  timeout : Int
  transient : Bool
  icons : KeyTable String
  urgency : KeyTable Urgency
  messages : KeyTable String
  category : KeyTable String
  deriving Repr, DecidableEq

/-- `DEFAULT_CONFIG` from `hypr-notifier.ts` (lines 35-59). -/
def DEFAULT_CONFIG : HyprlandConfig :=
  { notification := true, timeout := 15000, transient := false,
    icons := { permission := "dialog-password",
               session := "emblem-ok-symbolic",
               idle := "dialog-information" },
    urgency := { permission := Urgency.critical, session := Urgency.normal,
                 idle := Urgency.normal },
    messages := { permission := "OpenCode Needs Your Attention",
                  session := "OpenCode Session Idle",
                  idle := "OpenCode Waiting for Input" },
    category := { permission := "im.received", session := "im.received",
                  idle := "im.received" } }

/-- `OpenCodeEvent` from `hypr-notifier.ts` (line 29): a type tag and untyped
properties (the decoded JSON payload). -/
structure OpenCodeEvent where
  type : String
  properties : JSON

/-- The internal event keys (`hypr-notifier.ts` line 236). -/
inductive EventKey where
  | permission
  | session
  | idle
  deriving Repr, DecidableEq

/-- The `eventMap` record lookup (`hypr-notifier.ts` lines 238-243):
`undefined` for unmapped event types. -/
def eventMap (t : String) : Option EventKey :=
  if t = "permission.updated" then some EventKey.permission
  else if t = "session.complete" then some EventKey.session
  else if t = "task.complete" then some EventKey.session
  else if t = "session.idle" then some EventKey.idle
  else none

/-- Indexing a per-key table with an event key (`config.messages[key]`
etc.). -/
def KeyTable.get {α : Type} (tbl : KeyTable α) : EventKey → α
  | EventKey.permission => tbl.permission
  | EventKey.session => tbl.session
  | EventKey.idle => tbl.idle

/-- JS `typeof v === "object" && v !== null`: objects and arrays, not
`null`. -/
def isJSObject : JSON → Bool
  | JSON.obj _ => true
  | JSON.arr _ => true
  | _ => false

/-- JS property access `p[k]` on an untyped value: a field of an object,
`undefined` (`none`) on arrays, primitives and missing keys. -/
def propGet : JSON → String → Option JSON
  | JSON.obj fields, k => lookupField fields k
  | _, _ => none

/-- JS `??` (nullish coalescing) over optionally-present values: `null` and
`undefined` (absence) both fall through to the right operand. -/
def jsCoalesce (a : Option JSON) (b : Option JSON) : Option JSON :=
  match a with
  | some JSON.null => b
  | none => b
  | some v => some v

/-- JS truthiness of a value. -/
def jsTruthy : JSON → Bool
  | JSON.null => false
  | JSON.bool b => b
  | JSON.num q => !(q == 0)
  | JSON.str s => !(s == "")
  | JSON.arr _ => true
  | JSON.obj _ => true

mutual

/-- JS string conversion of an array element inside `Array.join` (`null`
renders empty, nested arrays join with `","`, objects render as
`[object Object]`; number formatting is approximated by the rational's
display — no property below depends on body text). -/
def jsJoinElem : JSON → String
  | JSON.null => ""
  | JSON.bool b => cond b "true" "false"
  | JSON.num q => toString q
  | JSON.str s => s
  | JSON.arr xs => joinInner xs
  | JSON.obj _ => "[object Object]"

/-- JS default array `toString` (join with `","`). -/
def joinInner : List JSON → String
  | [] => ""
  | [x] => jsJoinElem x
  | x :: rest => jsJoinElem x ++ "," ++ joinInner rest

end

/-- JS `Array.prototype.join(", ")` (`p.pattern.join(", ")`). -/
def joinComma : List JSON → String
  | [] => ""
  | [x] => jsJoinElem x
  | x :: rest => jsJoinElem x ++ ", " ++ joinComma rest

/-- JS template-literal display of a value. -/
def jsDisplay : JSON → String
  | JSON.null => "null"
  | JSON.bool b => cond b "true" "false"
  | JSON.num q => toString q
  | JSON.str s => s
  | JSON.arr xs => joinInner xs
  | JSON.obj _ => "[object Object]"

/-- `buildBody` from `hypr-notifier.ts` (lines 185-230). -/
def buildBody (eventType : String) (props : JSON) : String :=
  if !isJSObject props then "Event received"
  else if eventType = "permission.updated" then
    let body := "Type: " ++
      (match propGet props "type" with
       | some (JSON.str s) => s
       | _ => "Unknown")
    let body := match propGet props "title" with
      | some (JSON.str s) => body ++ "\nAction: " ++ s
      | _ => body
    let body := match propGet props "pattern" with
      | some (JSON.arr xs) => body ++ "\nResource: " ++ joinComma xs
      | some (JSON.str s) => body ++ "\nResource: " ++ s
      | _ => body
    match propGet props "sessionID" with
    | some (JSON.str s) => body ++ "\nSession: " ++ s
    | _ => body
  else if eventType = "session.complete" then
    let info := match propGet props "info" with
      | some v => if isJSObject v then v else JSON.obj []
      | none => JSON.obj []
    let sessionID := jsDisplay
      ((jsCoalesce (propGet info "id")
        (jsCoalesce (propGet props "sessionID")
          (some (JSON.str "unknown")))).getD (JSON.str "unknown"))
    let body := "Session: " ++ sessionID
    let body := match propGet info "title" with
      | some (JSON.str s) => body ++ "\nTitle: " ++ s
      | _ => body
    match propGet info "summary" with
    | some summary =>
      if jsTruthy summary then
        let body := match propGet summary "files" with
          | some (JSON.num q) =>
            if 0 < q then body ++ "\nFiles: " ++ toString q else body
          | _ => body
        let body := match propGet summary "additions" with
          | some (JSON.num q) =>
            if 0 < q then body ++ "\n+" ++ toString q else body
          | _ => body
        match propGet summary "deletions" with
        | some (JSON.num q) =>
          if 0 < q then body ++ "\n-" ++ toString q else body
        | _ => body
      else body
    | none => body
  else if eventType = "task.complete" then
    let taskID := jsDisplay
      ((jsCoalesce (propGet props "taskID")
        (jsCoalesce (propGet props "id")
          (some (JSON.str "unknown")))).getD (JSON.str "unknown"))
    let body := "Task: " ++ taskID
    let body := match propGet props "title" with
      | some (JSON.str s) => body ++ "\nTitle: " ++ s
      | _ => body
    let body := match propGet props "description" with
      | some (JSON.str s) => body ++ "\nDescription: " ++ s
      | _ => body
    match propGet props "sessionID" with
    | some (JSON.str s) => body ++ "\nSession: " ++ s
    | _ => body
  else if eventType = "session.idle" then
    let sidVal := (jsCoalesce (propGet props "sessionID")
      (jsCoalesce (propGet props "id")
        (some (JSON.str "unknown")))).getD (JSON.str "unknown")
    let body := "OpenCode has finished processing"
    match sidVal with
    | JSON.str s => if s = "unknown" then body else body ++ "\nSession: " ++ s
    | v => body ++ "\nSession: " ++ jsDisplay v
  else
    match propGet props "title" with
    | some (JSON.str s) => s
    | _ => "Event received"

/-- The argv-visible payload of one `notify-send` invocation, i.e. the
arguments `handleEvent` passes to `sendNotification`. -/
structure Notification where
  title : String
  body : String
  urgency : Urgency
  timeout : Int
  icon : String
  category : String
  transient : Bool
  deriving Repr, DecidableEq

/-- `handleEvent` from `hypr-notifier.ts` (lines 245-274), as a transition on
the module-level `idleNotificationSent` flag: returns the new flag and the
notification sent, if any.  Disabled notifications and unmapped event types
leave the flag untouched; a first idle event sends and sets the flag; further
idle events are suppressed while it is set; permission/session-key events
clear it and send. -/
def handleEvent (config : HyprlandConfig) (idleNotificationSent : Bool)
    (event : OpenCodeEvent) : Bool × Option Notification :=
  if !config.notification then (idleNotificationSent, none)
  else
    match eventMap event.type with
    | none => (idleNotificationSent, none)
    | some key =>
      if key = EventKey.idle && idleNotificationSent then
        (idleNotificationSent, none)
      else
        let s1 := if key = EventKey.idle then true else idleNotificationSent
        let s2 := if key = EventKey.permission || key = EventKey.session then
            false
          else s1
        (s2, some { title := config.messages.get key,
                    body := buildBody event.type event.properties,
                    urgency := config.urgency.get key,
                    timeout := config.timeout,
                    icon := config.icons.get key,
                    category := config.category.get key,
                    transient := config.transient })

/-- The `idleNotificationSent` flag after a sequence of events. -/
def stateAfter (config : HyprlandConfig) (s : Bool) :
    List OpenCodeEvent → Bool
  | [] => s
  | e :: rest => stateAfter config (handleEvent config s e).1 rest

/-! ## C10 — at most one idle notification between resets -/

/-- An idle event that sends a notification leaves the flag set (and implies
notifications are enabled). -/
theorem handleEvent_idle_sets (config : HyprlandConfig) (s : Bool)
    (e : OpenCodeEvent) (h : e.type = "session.idle")
    (hsent : (handleEvent config s e).2.isSome = true) :
    config.notification = true ∧ (handleEvent config s e).1 = true := by
  have hk : eventMap e.type = some EventKey.idle := by rw [h]; rfl
  by_cases hn : config.notification = true
  · refine ⟨hn, ?_⟩
    cases s with
    | true => simp [handleEvent, hn, hk] at hsent
    | false => simp [handleEvent, hn, hk]
  · have hnf : config.notification = false := by
      simpa using hn
    simp [handleEvent, hnf] at hsent

/-- An event mapped to neither the permission nor the session key leaves a
set idle flag set. -/
theorem handleEvent_keeps_idle_flag (config : HyprlandConfig)
    (m : OpenCodeEvent)
    (hm : eventMap m.type ≠ some EventKey.permission ∧
          eventMap m.type ≠ some EventKey.session) :
    (handleEvent config true m).1 = true := by
  by_cases hn : config.notification = true
  · cases hk : eventMap m.type with
    | none => simp [handleEvent, hn, hk]
    | some key =>
      cases key with
      | permission => exact absurd hk hm.1
      | session => exact absurd hk hm.2
      | idle => simp [handleEvent, hn, hk]
  · have hnf : config.notification = false := by
      simpa using hn
    simp [handleEvent, hnf]

/-- The idle flag stays set across any sequence of events none of which maps
to the permission or session key. -/
theorem stateAfter_keeps_idle_flag (config : HyprlandConfig)
    (ys : List OpenCodeEvent)
    (hys : ∀ m ∈ ys, eventMap m.type ≠ some EventKey.permission ∧
      eventMap m.type ≠ some EventKey.session) :
    stateAfter config true ys = true := by
  induction ys with
  | nil => rfl
  | cons m rest ih =>
    simp only [stateAfter]
    rw [handleEvent_keeps_idle_flag config m (hys m (List.mem_cons_self _ _))]
    exact ih (fun m' hm' => hys m' (List.mem_cons_of_mem _ hm'))

/-- With the idle flag set, an idle event sends nothing. -/
theorem handleEvent_idle_suppressed (config : HyprlandConfig)
    (e : OpenCodeEvent) (h : e.type = "session.idle") :
    (handleEvent config true e).2 = none := by
  have hk : eventMap e.type = some EventKey.idle := by rw [h]; rfl
  by_cases hn : config.notification = true
  · simp [handleEvent, hn, hk]
  · have hnf : config.notification = false := by
      simpa using hn
    simp [handleEvent, hnf]

/-- C10: after a `session.idle` event that sends a notification, every later
`session.idle` event sends none as long as no intervening handled event maps
to the permission or session key (`permission.updated`, `session.complete`,
`task.complete`); and handling any such permission/session-key event with
notifications enabled resets the idle flag.  Hence two idle notifications are
never sent without such an intervening event. -/
theorem idle_notification_sent_once (config : HyprlandConfig) (s : Bool)
    (e1 e2 : OpenCodeEvent) (ys : List OpenCodeEvent)
    (h1 : e1.type = "session.idle") (h2 : e2.type = "session.idle")
    (hsent : (handleEvent config s e1).2.isSome = true)
    (hys : ∀ m ∈ ys, eventMap m.type ≠ some EventKey.permission ∧
      eventMap m.type ≠ some EventKey.session) :
    (handleEvent config (stateAfter config (handleEvent config s e1).1 ys) e2).2
        = none ∧
    ∀ e : OpenCodeEvent, config.notification = true →
      (eventMap e.type = some EventKey.permission ∨
       eventMap e.type = some EventKey.session) →
      ∀ s' : Bool, (handleEvent config s' e).1 = false := by
  constructor
  · have hset := handleEvent_idle_sets config s e1 h1 hsent
    rw [hset.2, stateAfter_keeps_idle_flag config ys hys]
    exact handleEvent_idle_suppressed config e2 h2
  · intro e hn hkey s'
    rcases hkey with hk | hk
    · simp [handleEvent, hn, hk]
    · simp [handleEvent, hn, hk]

/-- A concrete idle event. -/
def idleEvent : OpenCodeEvent :=
  { type := "session.idle", properties := JSON.obj [] }

/-- A concrete event of an unmapped type. -/
def unkEvent : OpenCodeEvent :=
  { type := "unknown.event", properties := JSON.null }

/-- Witness for `idle_notification_sent_once` under the default configuration
with two idle events separated by one unmapped event. -/
theorem idle_notification_sent_once_witness :
    (handleEvent DEFAULT_CONFIG false idleEvent).2.isSome = true ∧
    ((handleEvent DEFAULT_CONFIG
        (stateAfter DEFAULT_CONFIG
          (handleEvent DEFAULT_CONFIG false idleEvent).1 [unkEvent])
        idleEvent).2 = none ∧
     ∀ e : OpenCodeEvent, DEFAULT_CONFIG.notification = true →
       (eventMap e.type = some EventKey.permission ∨
        eventMap e.type = some EventKey.session) →
       ∀ s' : Bool, (handleEvent DEFAULT_CONFIG s' e).1 = false) :=
  ⟨rfl, idle_notification_sent_once DEFAULT_CONFIG false idleEvent idleEvent
    [unkEvent] rfl rfl rfl (by decide)⟩

end Openspec
